import Mathlib

/-!
Verification of the appointment-scheduling core of the hospital-management
repository (`src/app/models.py`, `src/app/routes/patient.py`,
`src/app/routes/doctor.py`, `src/app/routes/admin.py`).

The embedding is a direct translation of the Python source:
* `AppointmentState`, `MedicalAppointment`, `TreatmentRecord` mirror the
  SQLAlchemy models in `models.py`; the appointment table is a `List` of rows.
* Dates and times are represented by their canonical strings ("YYYY-MM-DD",
  "HH:MM").  The source converts between such strings and `date`/`time`
  objects with `date.fromisoformat` / `strptime`, both injective on the
  values that occur, so string equality coincides with object equality.
* The route handlers become functions from a database state (`DBState`) to
  `Except BookingError DBState`; a failed Flask request (flash + redirect,
  or an exception followed by rollback) leaves the database unchanged, which
  `Except.error` models.
* `db.session.commit()` enforces the table-level
  `UniqueConstraint('doctor_id', 'date', 'time')` of
  `MedicalAppointment.__table_args__`; an insert or update that would put two
  rows on the same (doctor_id, date, time) tuple raises, is rolled back, and
  the handler reports an error.  `commit` checks model this.
-/

namespace HospitalMS

/-- `AppointmentState` enum of `models.py` (lines 17-20). -/
inductive AppointmentState where
  | BOOKED
  | COMPLETED
  | CANCELLED
deriving DecidableEq, Repr, Fintype

/-- The `.value` of an `AppointmentState` member. -/
def AppointmentState.value : AppointmentState → String
  | .BOOKED => "Booked"
  | .COMPLETED => "Completed"
  | .CANCELLED => "Cancelled"

/-- A row of the `appointments` table (`MedicalAppointment`, `models.py`
lines 123-134).  Timestamps are omitted: no claim mentions them. -/
structure MedicalAppointment where
  id : Nat
  patient_id : Nat
  doctor_id : Nat
  date : String
  time : String
  status : AppointmentState
  notes : String
deriving DecidableEq, Repr

/-- A row of the `treatments` table (`TreatmentRecord`, `models.py`
lines 217-229). -/
structure TreatmentRecord where
  id : Nat
  appointment_id : Nat
  visit_type : String
  tests_done : String
  diagnosis : String
  prescription : String
  medicines : String
  notes : String
deriving DecidableEq, Repr

/-- A provider's declared availability: the JSON map date-string → list of
time labels stored in `PhysicianProfile.availability` (`models.py` line 93),
as an association list. -/
def Availability := List (String × List String)

/-- The database: the appointment and treatment tables plus each doctor's
availability map, and the primary-key counters. -/
structure DBState where
  appointments : List MedicalAppointment
  treatments : List TreatmentRecord
  availabilities : List (Nat × List (String × List String))
  next_appt_id : Nat
  next_treatment_id : Nat
deriving Repr

/-- `MedicalAppointment.check_time_slot_availability` (`models.py` lines
144-157): build the query filtered on doctor, date, time and
status=BOOKED, add the `id != exclude` filter only when an exclusion is
given, and return whether the result set is empty. -/
def check_time_slot_availability (appointments : List MedicalAppointment)
    (physician_id : Nat) (appointment_date appointment_time : String)
    (exclude_appointment_id : Option Nat) : Bool :=
  let base := appointments.filter fun (a : MedicalAppointment) =>
    decide (a.doctor_id = physician_id ∧ a.date = appointment_date ∧
      a.time = appointment_time ∧ a.status = AppointmentState.BOOKED)
  let query := match exclude_appointment_id with
    | some e => base.filter fun (a : MedicalAppointment) => decide (a.id ≠ e)
    | none => base
  query.isEmpty

/-- `MedicalAppointment.validate_status_transition` (`models.py` lines
159-176), the lifecycle checker (`can_transition_to` is an alias of it). -/
def validate_status_transition (current_status target_status : AppointmentState) :
    Bool × Option String :=
  if current_status = target_status then (true, none)
  else if current_status = AppointmentState.BOOKED then
    if target_status = AppointmentState.COMPLETED ∨
        target_status = AppointmentState.CANCELLED then (true, none)
    else (false, some ("Invalid transition from " ++ current_status.value ++
      " to " ++ target_status.value))
  else if current_status = AppointmentState.COMPLETED ∨
      current_status = AppointmentState.CANCELLED then
    if target_status = AppointmentState.BOOKED then
      (false, some ("Cannot change " ++ current_status.value ++
        " appointment back to Booked"))
    else (true, none)
  else (true, none)

/-- `MedicalAppointment.change_status` (`models.py` lines 178-189): the pair
returned to the caller together with the status the row holds afterwards
(`update_status` is an alias of it). -/
def change_status (current new_status : AppointmentState)
    (bypass_validation : Bool) : (Bool × String) × AppointmentState :=
  if bypass_validation = false then
    match validate_status_transition current new_status with
    | (false, error_message) =>
        ((false, error_message.getD "Invalid status transition"), current)
    | (true, _) =>
        ((true, "Status changed from " ++ current.value ++ " to " ++
          new_status.value), new_status)
  else
    ((true, "Status changed from " ++ current.value ++ " to " ++
      new_status.value), new_status)

/-- Look up a doctor's availability map (`doctor.physician_profile.availability`);
`none` when the doctor has no profile row. -/
def lookupAvailability (avs : List (Nat × List (String × List String)))
    (doctor_id : Nat) : Option (List (String × List String)) :=
  (avs.find? fun p => decide (p.1 = doctor_id)).map Prod.snd

/-- The slots a map declares under a date key (`availability[date]`),
`none` when the key is absent. -/
def availabilitySlots (availability : List (String × List String))
    (date_key : String) : Option (List String) :=
  (availability.find? fun p => decide (p.1 = date_key)).map Prod.snd

/-- The two failure cases of `_validate_doctor_availability`
(`routes/patient.py` lines 261-272), each carrying its flash message. -/
inductive AvailabilityError where
  | DateUnavailable
  | TimeUnavailable
deriving DecidableEq, Repr

/-- The flash message `_validate_doctor_availability` returns for each
failure. -/
def AvailabilityError.message : AvailabilityError → String
  | .DateUnavailable => "Doctor is not available on this date."
  | .TimeUnavailable =>
      "Selected time slot is not available. Please choose another time."

/-- `_validate_doctor_availability` (`routes/patient.py` lines 261-272):
an absent/empty availability map and an absent date key both give the
date message; a date whose slot list misses the time gives the time
message.  `none` means the booking is declared available. -/
def validate_doctor_availability (availability : List (String × List String))
    (appointment_date appointment_time : String) : Option AvailabilityError :=
  if availability.isEmpty then some AvailabilityError.DateUnavailable
  else match availabilitySlots availability appointment_date with
  | none => some AvailabilityError.DateUnavailable
  | some available_slots =>
      if available_slots.contains appointment_time then none
      else some AvailabilityError.TimeUnavailable

/-- The error outcomes of the booking routes, each Flask flash-and-redirect
(or exception-and-rollback) path. -/
inductive BookingError where
  | SlotUnavailable (message : String)
  | InvalidState (message : String)
  | ValidationError (message : String)
  | CommitFailure
  | NotFound
deriving DecidableEq, Repr

/-- The flash message of the conflict branch of `create_appointment` and
`reschedule_client_appointment`. -/
def slotTakenMessage : String :=
  "This time slot is already booked. Please choose another time."

/-- `Appointment.query.get(id)` / `get_or_404(id)`: the row with the given
primary key. -/
def findAppointment (appointments : List MedicalAppointment) (i : Nat) :
    Option MedicalAppointment :=
  appointments.find? fun a => decide (a.id = i)

/-- Whether inserting/keeping row `a` besides the other rows violates
`UniqueConstraint('doctor_id', 'date', 'time')` (`models.py` line 141):
some other row already holds the same tuple. -/
def violatesUniqueSlot (appointments : List MedicalAppointment)
    (a : MedicalAppointment) : Bool :=
  appointments.any fun b =>
    decide (b.id ≠ a.id ∧ b.doctor_id = a.doctor_id ∧ b.date = a.date ∧
      b.time = a.time)

/-- The POST branch of `create_appointment` (`routes/patient.py` lines
336-379): validate the doctor's declared availability, then
`verify_slot_availability` with no exclusion, then insert a BOOKED row and
commit; a commit failure (the unique constraint raising on the insert) is
caught, rolled back and reported as an error. -/
def newAppointment (s : DBState) (patient_id doctor_id : Nat)
    (appointment_date appointment_time notes : String) : MedicalAppointment :=
  { id := s.next_appt_id, patient_id := patient_id, doctor_id := doctor_id,
    date := appointment_date, time := appointment_time,
    status := AppointmentState.BOOKED, notes := notes }

def create_appointment (s : DBState) (patient_id doctor_id : Nat)
    (appointment_date appointment_time notes : String) :
    Except BookingError DBState :=
  match validate_doctor_availability
      ((lookupAvailability s.availabilities doctor_id).getD [])
      appointment_date appointment_time with
  | some e => Except.error (BookingError.SlotUnavailable e.message)
  | none =>
    if check_time_slot_availability s.appointments doctor_id appointment_date
        appointment_time none = false then
      Except.error (BookingError.SlotUnavailable slotTakenMessage)
    else if violatesUniqueSlot s.appointments
        (newAppointment s patient_id doctor_id appointment_date
          appointment_time notes) then
      Except.error BookingError.CommitFailure
    else
      Except.ok { s with
        appointments := s.appointments ++
          [newAppointment s patient_id doctor_id appointment_date
            appointment_time notes]
        next_appt_id := s.next_appt_id + 1 }

/-- `reschedule_client_appointment` (`routes/patient.py` lines 417-475):
require status=BOOKED, validate declared availability and
`verify_slot_availability` excluding the appointment itself against the new
slot, then update date/time in place and commit (the unique constraint can
still raise on the UPDATE when a non-booked row holds the new tuple). -/
def reschedule_client_appointment (s : DBState) (appt_id : Nat)
    (new_date new_time : String) : Except BookingError DBState :=
  match findAppointment s.appointments appt_id with
  | none => Except.error BookingError.NotFound
  | some appointment =>
    if appointment.status ≠ AppointmentState.BOOKED then
      Except.error (BookingError.InvalidState
        "Only booked appointments can be rescheduled.")
    else
      match validate_doctor_availability
          ((lookupAvailability s.availabilities appointment.doctor_id).getD [])
          new_date new_time with
      | some e => Except.error (BookingError.SlotUnavailable e.message)
      | none =>
        if check_time_slot_availability s.appointments appointment.doctor_id
            new_date new_time (some appt_id) = false then
          Except.error (BookingError.SlotUnavailable slotTakenMessage)
        else if violatesUniqueSlot s.appointments
            { appointment with date := new_date, time := new_time } then
          Except.error BookingError.CommitFailure
        else
          Except.ok { s with appointments := s.appointments.map fun a =>
            if a.id = appt_id then { a with date := new_date, time := new_time }
            else a }

/-- `cancel_client_appointment` (`routes/patient.py` lines 478-501; the
doctor route `cancel_physician_appointment` is the same logic): require
status=BOOKED, run `can_transition_to(CANCELLED)`, set status=CANCELLED. -/
def cancel_client_appointment (s : DBState) (appt_id : Nat) :
    Except BookingError DBState :=
  match findAppointment s.appointments appt_id with
  | none => Except.error BookingError.NotFound
  | some appointment =>
    if appointment.status ≠ AppointmentState.BOOKED then
      Except.error (BookingError.InvalidState
        "Only booked appointments can be cancelled.")
    else
      match validate_status_transition appointment.status
          AppointmentState.CANCELLED with
      | (false, reason) =>
          Except.error (BookingError.InvalidState (reason.getD ""))
      | (true, _) =>
          Except.ok { s with appointments := s.appointments.map fun a =>
            if a.id = appt_id then { a with status := AppointmentState.CANCELLED }
            else a }

/-- The treatment fields `_extract_treatment_data` reads from the completion
form (`routes/doctor.py` lines 109-117), each already stripped. -/
structure TreatmentData where
  visit_type : String
  tests_done : String
  diagnosis : String
  prescription : String
  medicines : String
  notes : String
deriving DecidableEq, Repr

/-- Overwrite a treatment row's clinical fields with the form data
(the assignment block of `_create_or_update_treatment_record`,
`routes/doctor.py` lines 126-131). -/
def applyTreatmentData (td : TreatmentData) (tr : TreatmentRecord) :
    TreatmentRecord :=
  { tr with
      visit_type := td.visit_type
      tests_done := td.tests_done
      diagnosis := td.diagnosis
      prescription := td.prescription
      medicines := td.medicines
      notes := td.notes }

/-- Mutate the first treatment row with the given `appointment_id` (the
object `query.first()` returned). -/
def updateFirstTreatment (treatments : List TreatmentRecord)
    (appointment_id : Nat) (td : TreatmentData) : List TreatmentRecord :=
  match treatments with
  | [] => []
  | tr :: rest =>
    if tr.appointment_id = appointment_id then applyTreatmentData td tr :: rest
    else tr :: updateFirstTreatment rest appointment_id td

/-- `_create_or_update_treatment_record` (`routes/doctor.py` lines 120-132):
update the existing treatment of the appointment, or add a fresh row; the
new table and the next treatment primary key. -/
def create_or_update_treatment_record (treatments : List TreatmentRecord)
    (next_treatment_id appointment_id : Nat) (td : TreatmentData) :
    List TreatmentRecord × Nat :=
  match treatments.find? fun tr => decide (tr.appointment_id = appointment_id) with
  | some _ => (updateFirstTreatment treatments appointment_id td, next_treatment_id)
  | none =>
      (treatments ++ [applyTreatmentData td
        { id := next_treatment_id, appointment_id := appointment_id,
          visit_type := "", tests_done := "", diagnosis := "",
          prescription := "", medicines := "", notes := "" }],
       next_treatment_id + 1)

/-- The POST branch of `mark_appointment_completed` (`routes/doctor.py`
lines 135-168): require status=BOOKED, require a non-empty diagnosis, run
`can_transition_to(COMPLETED)`, then set status=COMPLETED and create/update
the treatment record in the same commit. -/
def mark_appointment_completed (s : DBState) (appt_id : Nat)
    (td : TreatmentData) : Except BookingError DBState :=
  match findAppointment s.appointments appt_id with
  | none => Except.error BookingError.NotFound
  | some appointment =>
    if appointment.status ≠ AppointmentState.BOOKED then
      Except.error (BookingError.InvalidState
        "This appointment is already completed or cancelled.")
    else if td.diagnosis = "" then
      Except.error (BookingError.ValidationError "Diagnosis is required.")
    else
      match validate_status_transition appointment.status
          AppointmentState.COMPLETED with
      | (false, reason) =>
          Except.error (BookingError.InvalidState (reason.getD ""))
      | (true, _) =>
        match create_or_update_treatment_record s.treatments
            s.next_treatment_id appt_id td with
        | (new_treatments, new_next_treatment_id) =>
          Except.ok { s with
            appointments := s.appointments.map fun a =>
              if a.id = appt_id then
                { a with status := AppointmentState.COMPLETED }
              else a
            treatments := new_treatments
            next_treatment_id := new_next_treatment_id }

/-- The flash category of an admin status update. -/
inductive FlashCategory where
  | success
  | warning
  | error
deriving DecidableEq, Repr

/-- `AppointmentStatus[string.upper()]` over the `valid_statuses` whitelist
of `modify_appointment_status`. -/
def parseAppointmentStatus : String → Option AppointmentState
  | "Booked" => some AppointmentState.BOOKED
  | "Completed" => some AppointmentState.COMPLETED
  | "Cancelled" => some AppointmentState.CANCELLED
  | _ => none

/-- `modify_appointment_status` (`routes/admin.py` lines 326-355): the
checker's verdict only picks the flash category (warning instead of
success); the status is assigned and committed in either case. -/
def modify_appointment_status (s : DBState) (appointment_id : Nat)
    (new_status_string : String) : DBState × FlashCategory :=
  match findAppointment s.appointments appointment_id with
  | none => (s, FlashCategory.error)
  | some appointment =>
    match parseAppointmentStatus new_status_string with
    | none => (s, FlashCategory.error)
    | some new_status =>
      let verdict := validate_status_transition appointment.status new_status
      let category :=
        if verdict.1 then FlashCategory.success else FlashCategory.warning
      ({ s with appointments := s.appointments.map fun a =>
          if a.id = appointment_id then { a with status := new_status } else a },
       category)

/-- `remove_appointment` (`routes/admin.py` lines 358-371): refuse when the
appointment is COMPLETED, else `db.session.delete` the row.  The delete
cascades to the attached `TreatmentRecord`: the `treatment_record`
relationship carries `cascade='all, delete-orphan'` (`models.py` line 136)
and the treatments table's foreign key is `ondelete='CASCADE'`
(`models.py` line 221), so every treatment row of the deleted appointment
is deleted in the same commit. -/
def remove_appointment (s : DBState) (appointment_id : Nat) :
    Except BookingError DBState :=
  match findAppointment s.appointments appointment_id with
  | none => Except.error BookingError.NotFound
  | some appointment =>
    if appointment.status = AppointmentState.COMPLETED then
      Except.error (BookingError.InvalidState
        "Cannot delete completed appointments. They are permanent medical records.")
    else
      Except.ok { s with
        appointments :=
          s.appointments.eraseP fun a => decide (a.id = appointment_id)
        treatments :=
          s.treatments.filter fun tr => decide (tr.appointment_id ≠ appointment_id) }

/-- The four Booking Orchestrator operations of the spec (Create,
Reschedule, Cancel, Complete), with their request inputs. -/
inductive Op where
  | create (patient_id doctor_id : Nat) (d t notes : String)
  | reschedule (appt_id : Nat) (d t : String)
  | cancel (appt_id : Nat)
  | complete (appt_id : Nat) (td : TreatmentData)

/-- Run one operation's route handler. -/
def runOp (s : DBState) : Op → Except BookingError DBState
  | .create p doc d t n => create_appointment s p doc d t n
  | .reschedule i d t => reschedule_client_appointment s i d t
  | .cancel i => cancel_client_appointment s i
  | .complete i td => mark_appointment_completed s i td

/-- One request: a failed request leaves the database unchanged. -/
def step (s : DBState) (op : Op) : DBState :=
  match runOp s op with
  | Except.ok s' => s'
  | Except.error _ => s

/-- The freshly bootstrapped database (`db.create_all()`): no appointments
or treatments yet; doctors' declared availabilities arbitrary. -/
def initialState (avs : List (Nat × List (String × List String))) : DBState :=
  { appointments := [], treatments := [], availabilities := avs,
    next_appt_id := 1, next_treatment_id := 1 }

/-! ### The Conflict Checker's characterisation -/

/-- The spec's description of a conflicting row: an appointment with the
provider, date, time, status=Booked, and an id different from the
exclusion when one is given. -/
def ConflictingBookedRow (appointments : List MedicalAppointment)
    (provider_id : Nat) (d t : String) (exclude : Option Nat) : Prop :=
  ∃ a ∈ appointments, a.doctor_id = provider_id ∧ a.date = d ∧ a.time = t ∧
    a.status = AppointmentState.BOOKED ∧ ∀ e, exclude = some e → a.id ≠ e

theorem check_time_slot_availability_iff (appointments : List MedicalAppointment)
    (provider_id : Nat) (d t : String) (exclude : Option Nat) :
    check_time_slot_availability appointments provider_id d t exclude = true ↔
      ¬ ConflictingBookedRow appointments provider_id d t exclude := by
  unfold check_time_slot_availability ConflictingBookedRow
  cases exclude with
  | none =>
    simp only [List.isEmpty_iff, List.filter_eq_nil_iff, decide_eq_true_eq]
    constructor
    · rintro h ⟨a, ha, h1, h2, h3, h4, _⟩
      exact h a ha ⟨h1, h2, h3, h4⟩
    · intro h a ha hc
      exact h ⟨a, ha, hc.1, hc.2.1, hc.2.2.1, hc.2.2.2, fun e he => by cases he⟩
  | some e =>
    simp only [List.isEmpty_iff, List.filter_filter, List.filter_eq_nil_iff,
      Bool.and_eq_true, decide_eq_true_eq]
    constructor
    · rintro h ⟨a, ha, h1, h2, h3, h4, h5⟩
      exact h a ha ⟨h5 e rfl, h1, h2, h3, h4⟩
    · intro h a ha hc
      exact h ⟨a, ha, hc.2.1, hc.2.2.1, hc.2.2.2.1, hc.2.2.2.2,
        fun x hx => by cases hx; exact hc.1⟩

/-- The pointwise form of a positive slot check. -/
theorem check_time_slot_availability_forall
    {appointments : List MedicalAppointment} {provider_id : Nat} {d t : String}
    {exclude : Option Nat}
    (h : check_time_slot_availability appointments provider_id d t exclude = true)
    {a : MedicalAppointment} (ha : a ∈ appointments)
    (h1 : a.doctor_id = provider_id) (h2 : a.date = d) (h3 : a.time = t)
    (h4 : a.status = AppointmentState.BOOKED) :
    ∃ e, exclude = some e ∧ a.id = e := by
  rcases (check_time_slot_availability_iff appointments provider_id d t
    exclude).mp h with hno
  cases exclude with
  | none =>
    exact absurd ⟨a, ha, h1, h2, h3, h4, fun e he => by cases he⟩ hno
  | some e =>
    by_cases hid : a.id = e
    · exact ⟨e, rfl, hid⟩
    · exact absurd ⟨a, ha, h1, h2, h3, h4, fun x hx => by cases hx; exact hid⟩ hno

/-! ### Invariants of the appointment table -/

/-- Two rows occupy the same Booked slot. -/
def SameBookedSlot (a b : MedicalAppointment) : Prop :=
  a.status = AppointmentState.BOOKED ∧ b.status = AppointmentState.BOOKED ∧
  a.doctor_id = b.doctor_id ∧ a.date = b.date ∧ a.time = b.time

/-- The exclusivity invariant: no two rows of the table occupy the same
Booked slot. -/
def ExclusiveBooked (l : List MedicalAppointment) : Prop :=
  l.Pairwise fun a b => ¬ SameBookedSlot a b

/-- Primary keys are pairwise distinct (the `id` column is the table's
primary key). -/
def DistinctIds (l : List MedicalAppointment) : Prop :=
  l.Pairwise fun a b => a.id ≠ b.id

/-- Every row's id is below the autoincrement counter. -/
def IdsBounded (s : DBState) : Prop :=
  ∀ a ∈ s.appointments, a.id < s.next_appt_id

/-- The well-formedness + exclusivity invariant carried through every
operation. -/
def Invariant (s : DBState) : Prop :=
  DistinctIds s.appointments ∧ IdsBounded s ∧ ExclusiveBooked s.appointments

theorem sameBookedSlot_symm {a b : MedicalAppointment}
    (h : SameBookedSlot a b) : SameBookedSlot b a :=
  ⟨h.2.1, h.1, h.2.2.1.symm, h.2.2.2.1.symm, h.2.2.2.2.symm⟩

theorem distinctIds_id_inj {l : List MedicalAppointment}
    (hd : DistinctIds l) {a b : MedicalAppointment}
    (ha : a ∈ l) (hb : b ∈ l) (hid : a.id = b.id) : a = b := by
  by_contra hne
  exact List.Pairwise.forall (fun x y h => Ne.symm h) hd ha hb hne hid

theorem exclusiveBooked_forall {l : List MedicalAppointment}
    (he : ExclusiveBooked l) {a b : MedicalAppointment}
    (ha : a ∈ l) (hb : b ∈ l) (hne : a ≠ b) : ¬ SameBookedSlot a b := by
  have hsym : Symmetric fun a b : MedicalAppointment => ¬ SameBookedSlot a b :=
    fun x y h hs => h (sameBookedSlot_symm hs)
  exact List.Pairwise.forall hsym he ha hb hne

theorem findAppointment_mem {l : List MedicalAppointment} {i : Nat}
    {X : MedicalAppointment} (h : findAppointment l i = some X) :
    X ∈ l ∧ X.id = i := by
  unfold findAppointment at h
  refine ⟨List.mem_of_find?_eq_some h, ?_⟩
  have := List.find?_some h
  exact of_decide_eq_true this

/-! ### What a successful operation did to the state -/

theorem create_appointment_ok {s : DBState} {p doc : Nat} {d t n : String}
    {s' : DBState}
    (hok : create_appointment s p doc d t n = Except.ok s') :
    check_time_slot_availability s.appointments doc d t none = true ∧
    s'.appointments = s.appointments ++ [newAppointment s p doc d t n] ∧
    s'.treatments = s.treatments ∧
    s'.availabilities = s.availabilities ∧
    s'.next_appt_id = s.next_appt_id + 1 := by
  unfold create_appointment at hok
  split at hok
  · cases hok
  · split at hok
    · cases hok
    · split at hok
      · cases hok
      · rename_i hcheck _
        cases hok
        exact ⟨Bool.of_not_eq_false hcheck, rfl, rfl, rfl, rfl⟩

theorem reschedule_ok {s : DBState} {i : Nat} {nd nt : String} {s' : DBState}
    (hok : reschedule_client_appointment s i nd nt = Except.ok s') :
    ∃ X, findAppointment s.appointments i = some X ∧
      X.status = AppointmentState.BOOKED ∧
      check_time_slot_availability s.appointments X.doctor_id nd nt
        (some i) = true ∧
      s'.appointments = s.appointments.map (fun a =>
        if a.id = i then { a with date := nd, time := nt } else a) ∧
      s'.treatments = s.treatments ∧
      s'.availabilities = s.availabilities ∧
      s'.next_appt_id = s.next_appt_id := by
  unfold reschedule_client_appointment at hok
  split at hok
  · cases hok
  · rename_i X hfind
    split at hok
    · cases hok
    · rename_i hstatus
      split at hok
      · cases hok
      · split at hok
        · cases hok
        · split at hok
          · cases hok
          · rename_i hcheck _
            cases hok
            exact ⟨X, hfind, not_ne_iff.mp hstatus,
              Bool.of_not_eq_false hcheck, rfl, rfl, rfl, rfl⟩

theorem cancel_ok {s : DBState} {i : Nat} {s' : DBState}
    (hok : cancel_client_appointment s i = Except.ok s') :
    ∃ X, findAppointment s.appointments i = some X ∧
      X.status = AppointmentState.BOOKED ∧
      s'.appointments = s.appointments.map (fun a =>
        if a.id = i then { a with status := AppointmentState.CANCELLED }
        else a) ∧
      s'.treatments = s.treatments ∧
      s'.availabilities = s.availabilities ∧
      s'.next_appt_id = s.next_appt_id := by
  unfold cancel_client_appointment at hok
  split at hok
  · cases hok
  · rename_i X hfind
    split at hok
    · cases hok
    · rename_i hstatus
      split at hok
      · cases hok
      · cases hok
        exact ⟨X, hfind, not_ne_iff.mp hstatus, rfl, rfl, rfl, rfl⟩

theorem complete_ok {s : DBState} {i : Nat} {td : TreatmentData} {s' : DBState}
    (hok : mark_appointment_completed s i td = Except.ok s') :
    ∃ X, findAppointment s.appointments i = some X ∧
      X.status = AppointmentState.BOOKED ∧
      td.diagnosis ≠ "" ∧
      s'.appointments = s.appointments.map (fun a =>
        if a.id = i then { a with status := AppointmentState.COMPLETED }
        else a) ∧
      s'.treatments = (create_or_update_treatment_record s.treatments
        s.next_treatment_id i td).1 ∧
      s'.availabilities = s.availabilities ∧
      s'.next_appt_id = s.next_appt_id := by
  unfold mark_appointment_completed at hok
  split at hok
  · cases hok
  · rename_i X hfind
    split at hok
    · cases hok
    · rename_i hstatus
      split at hok
      · cases hok
      · rename_i hdiag
        split at hok
        · cases hok
        · split at hok
          rename_i hpair _ _ heq
          cases hok
          refine ⟨X, hfind, not_ne_iff.mp hstatus, hdiag, rfl, ?_, rfl, rfl⟩
          rw [heq]

/-! ### Each operation preserves the invariant -/

theorem create_preserves {s s' : DBState} {p doc : Nat} {d t n : String}
    (hok : create_appointment s p doc d t n = Except.ok s')
    (h : Invariant s) : Invariant s' := by
  obtain ⟨hd, hb, he⟩ := h
  obtain ⟨hcheck, happts, _htr, _hav, hnext⟩ := create_appointment_ok hok
  refine ⟨?_, ?_, ?_⟩
  · rw [DistinctIds, happts, List.pairwise_append]
    refine ⟨hd, List.pairwise_singleton _ _, ?_⟩
    intro a ha b hbmem
    rw [List.mem_singleton] at hbmem
    subst hbmem
    exact Nat.ne_of_lt (hb a ha)
  · intro a ha
    rw [happts, List.mem_append] at ha
    rw [hnext]
    rcases ha with ha | ha
    · exact Nat.lt_succ_of_lt (hb a ha)
    · rw [List.mem_singleton] at ha
      subst ha
      exact Nat.lt_succ_self _
  · rw [ExclusiveBooked, happts, List.pairwise_append]
    refine ⟨he, List.pairwise_singleton _ _, ?_⟩
    intro a ha b hbmem
    rw [List.mem_singleton] at hbmem
    subst hbmem
    rintro ⟨h1, _h2, h3, h4, h5⟩
    obtain ⟨e, he', _⟩ :=
      check_time_slot_availability_forall hcheck ha h3 h4 h5 h1
    cases he'

theorem setStatus_distinct {l : List MedicalAppointment} {i : Nat}
    {σ : AppointmentState} (hd : DistinctIds l) :
    DistinctIds (l.map fun a =>
      if a.id = i then { a with status := σ } else a) := by
  rw [DistinctIds, List.pairwise_map]
  refine hd.imp ?_
  intro a b hab
  by_cases hai : a.id = i
  · by_cases hbi : b.id = i
    · rw [if_pos hai, if_pos hbi]; exact hab
    · rw [if_pos hai, if_neg hbi]; exact hab
  · by_cases hbi : b.id = i
    · rw [if_neg hai, if_pos hbi]; exact hab
    · rw [if_neg hai, if_neg hbi]; exact hab

theorem setStatus_exclusive {l : List MedicalAppointment} {i : Nat}
    {σ : AppointmentState} (hσ : σ ≠ AppointmentState.BOOKED)
    (he : ExclusiveBooked l) :
    ExclusiveBooked (l.map fun a =>
      if a.id = i then { a with status := σ } else a) := by
  rw [ExclusiveBooked, List.pairwise_map]
  refine he.imp ?_
  intro a b hab hs
  by_cases hai : a.id = i
  · rw [if_pos hai] at hs
    exact hσ hs.1
  · by_cases hbi : b.id = i
    · rw [if_neg hai, if_pos hbi] at hs
      exact hσ hs.2.1
    · rw [if_neg hai, if_neg hbi] at hs
      exact hab hs

theorem setStatus_preserves {s s' : DBState} {i : Nat} {σ : AppointmentState}
    (hσ : σ ≠ AppointmentState.BOOKED)
    (happts : s'.appointments = s.appointments.map fun a =>
      if a.id = i then { a with status := σ } else a)
    (hnext : s'.next_appt_id = s.next_appt_id)
    (h : Invariant s) : Invariant s' := by
  obtain ⟨hd, hb, he⟩ := h
  refine ⟨?_, ?_, ?_⟩
  · rw [DistinctIds, happts]
    exact setStatus_distinct hd
  · intro a ha
    rw [happts, List.mem_map] at ha
    obtain ⟨b, hbmem, hba⟩ := ha
    rw [hnext, ← hba]
    by_cases hbi : b.id = i
    · rw [if_pos hbi]; exact hb b hbmem
    · rw [if_neg hbi]; exact hb b hbmem
  · rw [ExclusiveBooked, happts]
    exact setStatus_exclusive hσ he

theorem reschedule_preserves {s s' : DBState} {i : Nat} {nd nt : String}
    (hok : reschedule_client_appointment s i nd nt = Except.ok s')
    (h : Invariant s) : Invariant s' := by
  obtain ⟨hd, hb, he⟩ := h
  obtain ⟨X, hfind, _hX, hcheck, happts, _htr, _hav, hnext⟩ := reschedule_ok hok
  obtain ⟨hXmem, hXid⟩ := findAppointment_mem hfind
  refine ⟨?_, ?_, ?_⟩
  · rw [DistinctIds, happts, List.pairwise_map]
    refine hd.imp ?_
    intro a b hab
    by_cases hai : a.id = i
    · by_cases hbi : b.id = i
      · rw [if_pos hai, if_pos hbi]; exact hab
      · rw [if_pos hai, if_neg hbi]; exact hab
    · by_cases hbi : b.id = i
      · rw [if_neg hai, if_pos hbi]; exact hab
      · rw [if_neg hai, if_neg hbi]; exact hab
  · intro a ha
    rw [happts, List.mem_map] at ha
    obtain ⟨b, hbmem, hba⟩ := ha
    rw [hnext, ← hba]
    by_cases hbi : b.id = i
    · rw [if_pos hbi]; exact hb b hbmem
    · rw [if_neg hbi]; exact hb b hbmem
  · rw [ExclusiveBooked, happts, List.pairwise_map]
    refine List.Pairwise.imp_of_mem ?_ (he.and hd)
    intro a b ha hbmem hab hs
    by_cases hai : a.id = i
    · by_cases hbi : b.id = i
      · exact hab.2 (hai.trans hbi.symm)
      · rw [if_pos hai, if_neg hbi] at hs
        have h1 : a.status = AppointmentState.BOOKED := hs.1
        have h2 : b.status = AppointmentState.BOOKED := hs.2.1
        have h3 : a.doctor_id = b.doctor_id := hs.2.2.1
        have h4 : nd = b.date := hs.2.2.2.1
        have h5 : nt = b.time := hs.2.2.2.2
        have haX : a = X := distinctIds_id_inj hd ha hXmem (hai.trans hXid.symm)
        have hb3 : b.doctor_id = X.doctor_id := by rw [← haX]; exact h3.symm
        obtain ⟨e, he', hbe⟩ :=
          check_time_slot_availability_forall hcheck hbmem hb3 h4.symm h5.symm h2
        cases he'
        exact hbi hbe
    · by_cases hbi : b.id = i
      · rw [if_neg hai, if_pos hbi] at hs
        have h1 : a.status = AppointmentState.BOOKED := hs.1
        have h3 : a.doctor_id = b.doctor_id := hs.2.2.1
        have h4 : a.date = nd := hs.2.2.2.1
        have h5 : a.time = nt := hs.2.2.2.2
        have hbX : b = X := distinctIds_id_inj hd hbmem hXmem (hbi.trans hXid.symm)
        have ha3 : a.doctor_id = X.doctor_id := by rw [← hbX]; exact h3
        obtain ⟨e, he', hae⟩ :=
          check_time_slot_availability_forall hcheck ha ha3 h4 h5 h1
        cases he'
        exact hai hae
      · rw [if_neg hai, if_neg hbi] at hs
        exact hab.1 hs

theorem complete_preserves {s s' : DBState} {i : Nat} {td : TreatmentData}
    (hok : mark_appointment_completed s i td = Except.ok s')
    (h : Invariant s) : Invariant s' := by
  obtain ⟨X, _hfind, _hX, _hdiag, happts, _htr, _hav, hnext⟩ := complete_ok hok
  exact setStatus_preserves (by simp) happts hnext h

theorem cancel_preserves {s s' : DBState} {i : Nat}
    (hok : cancel_client_appointment s i = Except.ok s')
    (h : Invariant s) : Invariant s' := by
  obtain ⟨X, _hfind, _hX, happts, _htr, _hav, hnext⟩ := cancel_ok hok
  exact setStatus_preserves (by simp) happts hnext h

theorem step_preserves_invariant (s : DBState) (op : Op) (h : Invariant s) :
    Invariant (step s op) := by
  cases op with
  | create p doc d t n =>
    unfold step runOp
    dsimp only
    cases hr : create_appointment s p doc d t n with
    | error e => exact h
    | ok s' => exact create_preserves hr h
  | reschedule i d t =>
    unfold step runOp
    dsimp only
    cases hr : reschedule_client_appointment s i d t with
    | error e => exact h
    | ok s' => exact reschedule_preserves hr h
  | cancel i =>
    unfold step runOp
    dsimp only
    cases hr : cancel_client_appointment s i with
    | error e => exact h
    | ok s' => exact cancel_preserves hr h
  | complete i td =>
    unfold step runOp
    dsimp only
    cases hr : mark_appointment_completed s i td with
    | error e => exact h
    | ok s' => exact complete_preserves hr h

theorem foldl_step_invariant (ops : List Op) (s : DBState) (h : Invariant s) :
    Invariant (ops.foldl step s) := by
  induction ops generalizing s with
  | nil => exact h
  | cons op rest ih => exact ih (step s op) (step_preserves_invariant s op h)

theorem initialState_invariant (avs : List (Nat × List (String × List String))) :
    Invariant (initialState avs) :=
  ⟨List.Pairwise.nil, fun a ha => absurd ha (List.not_mem_nil a),
   List.Pairwise.nil⟩

theorem exclusive_countP_le_one {l : List MedicalAppointment}
    (he : ExclusiveBooked l) (provider_id : Nat) (d t : String) :
    (l.countP fun a => decide (a.doctor_id = provider_id ∧ a.date = d ∧
      a.time = t ∧ a.status = AppointmentState.BOOKED)) ≤ 1 := by
  induction l with
  | nil => simp
  | cons c rest ih =>
    rw [ExclusiveBooked, List.pairwise_cons] at he
    obtain ⟨hc, hrest⟩ := he
    rw [List.countP_cons]
    by_cases hpc : c.doctor_id = provider_id ∧ c.date = d ∧ c.time = t ∧
        c.status = AppointmentState.BOOKED
    · have h0 : (rest.countP fun a => decide (a.doctor_id = provider_id ∧
          a.date = d ∧ a.time = t ∧ a.status = AppointmentState.BOOKED)) = 0 := by
        rw [List.countP_eq_zero]
        intro b hbmem hpb
        rw [decide_eq_true_eq] at hpb
        exact hc b hbmem ⟨hpc.2.2.2, hpb.2.2.2,
          hpc.1.trans hpb.1.symm, hpc.2.1.trans hpb.2.1.symm,
          hpc.2.2.1.trans hpb.2.2.1.symm⟩
      rw [h0]
      simp [hpc]
    · simp only [decide_eq_true_eq, hpc, if_false, Nat.add_zero]
      exact ih hrest

/-! ### Claims C2, C4, C10: the pure checkers -/

/-- C2: the lifecycle checker `validate_status_transition` allows every
self-transition, Booked→Completed, Booked→Cancelled, Completed→Cancelled
and Cancelled→Completed, and rejects Completed→Booked and
Cancelled→Booked with an explanatory reason. -/
theorem C2_lifecycle_transition_table :
    (∀ s : AppointmentState, validate_status_transition s s = (true, none)) ∧
    validate_status_transition AppointmentState.BOOKED
      AppointmentState.COMPLETED = (true, none) ∧
    validate_status_transition AppointmentState.BOOKED
      AppointmentState.CANCELLED = (true, none) ∧
    validate_status_transition AppointmentState.COMPLETED
      AppointmentState.CANCELLED = (true, none) ∧
    validate_status_transition AppointmentState.CANCELLED
      AppointmentState.COMPLETED = (true, none) ∧
    validate_status_transition AppointmentState.COMPLETED
      AppointmentState.BOOKED =
      (false, some "Cannot change Completed appointment back to Booked") ∧
    validate_status_transition AppointmentState.CANCELLED
      AppointmentState.BOOKED =
      (false, some "Cannot change Cancelled appointment back to Booked") := by
  refine ⟨fun s => ?_, ?_, ?_, ?_, ?_, ?_, ?_⟩ <;> first
    | (cases s <;> rfl)
    | rfl

/-- C4: `check_time_slot_availability` returns true iff no appointment has
that provider, date, time, status=Booked and an id different from the
exclusion; with no exclusion the id condition is vacuous. -/
theorem C4_slot_free_iff (appointments : List MedicalAppointment)
    (provider_id : Nat) (d t : String) (exclude : Option Nat) :
    (check_time_slot_availability appointments provider_id d t exclude = true ↔
      ¬ ConflictingBookedRow appointments provider_id d t exclude) ∧
    (check_time_slot_availability appointments provider_id d t none = true ↔
      ¬ ∃ a ∈ appointments, a.doctor_id = provider_id ∧ a.date = d ∧
        a.time = t ∧ a.status = AppointmentState.BOOKED) := by
  refine ⟨check_time_slot_availability_iff appointments provider_id d t exclude, ?_⟩
  rw [check_time_slot_availability_iff appointments provider_id d t none]
  unfold ConflictingBookedRow
  constructor
  · rintro h ⟨a, ha, h1, h2, h3, h4⟩
    exact h ⟨a, ha, h1, h2, h3, h4, fun e he => by cases he⟩
  · rintro h ⟨a, ha, h1, h2, h3, h4, _⟩
    exact h ⟨a, ha, h1, h2, h3, h4⟩

/-- C10: `change_status` with `bypass_validation=True` always assigns the
target status and reports success, even for transitions the checker
forbids; with `bypass_validation=False` and a rejected transition it
returns the checker's reason and leaves the status unchanged. -/
theorem C10_change_status_bypass (current target : AppointmentState) :
    change_status current target true =
      ((true, "Status changed from " ++ current.value ++ " to " ++
        target.value), target) ∧
    (∀ msg, validate_status_transition current target = (false, some msg) →
      change_status current target false = ((false, msg), current)) := by
  constructor
  · rfl
  · intro msg h
    unfold change_status
    rw [h]
    rfl

/-! ### Claim C1: exclusivity of Booked slots -/

/-- C1: starting from the freshly created database, after any sequence of
Create, Reschedule, Cancel and Complete requests, at most one appointment
with a given (provider_id, date, time) tuple has status=Booked. -/
theorem C1_booked_slot_exclusivity
    (avs : List (Nat × List (String × List String))) (ops : List Op)
    (provider_id : Nat) (d t : String) :
    ((ops.foldl step (initialState avs)).appointments.countP fun a =>
      decide (a.doctor_id = provider_id ∧ a.date = d ∧ a.time = t ∧
        a.status = AppointmentState.BOOKED)) ≤ 1 :=
  exclusive_countP_le_one
    (foldl_step_invariant ops (initialState avs)
      (initialState_invariant avs)).2.2 provider_id d t

/-! ### Claim C3: cancelling is supposed to free the slot -/

/-- The two-request history behind claim C3: doctor 1 offers
2025-06-10 09:00; patient 10 books it (appointment 1), then cancels. -/
def cancelRebookState : DBState :=
  step (step (initialState [(1, [("2025-06-10", ["09:00"])])])
    (Op.create 10 1 "2025-06-10" "09:00" ""))
    (Op.cancel 1)

/-- C3: after the Cancel, the slot is declared available and the Booked-only
Conflict Checker reports it free, yet a new Create by patient 11 for the
same (provider, date, time) fails: the insert violates the status-blind
`UniqueConstraint('doctor_id', 'date', 'time')` and the commit is rolled
back.  The cancelled row still blocks the tuple, contradicting the claim
(and the constraint's own name `uq_doctor_date_time_booked_slot`). -/
theorem C3_cancel_does_not_free_slot :
    validate_doctor_availability
      ((lookupAvailability cancelRebookState.availabilities 1).getD [])
      "2025-06-10" "09:00" = none ∧
    check_time_slot_availability cancelRebookState.appointments 1
      "2025-06-10" "09:00" none = true ∧
    create_appointment cancelRebookState 11 1 "2025-06-10" "09:00" "" =
      Except.error BookingError.CommitFailure := by
  refine ⟨?_, ?_, ?_⟩ <;> rfl

/-! ### Claim C5: reschedule is a pure date/time move -/

/-- The one-appointment state on which rescheduling to the same slot
exhibits the failure of C5's "prior slot becomes free" clause. -/
def sameSlotAppointment : MedicalAppointment :=
  { id := 1
    patient_id := 10
    doctor_id := 1
    date := "2025-06-10"
    time := "09:00"
    status := AppointmentState.BOOKED
    notes := "" }

def sameSlotState : DBState :=
  { appointments := [sameSlotAppointment]
    treatments := []
    availabilities := [(1, [("2025-06-10", ["09:00"])])]
    next_appt_id := 2
    next_treatment_id := 1 }

/-- C5 counterexample: rescheduling a Booked appointment onto its own
current slot succeeds (the conflict check excludes the appointment itself),
but the prior (provider, date, time) slot is not free afterwards — the
appointment still occupies it. -/
theorem C5_same_slot_counterexample :
    reschedule_client_appointment sameSlotState 1 "2025-06-10" "09:00" =
      Except.ok sameSlotState ∧
    check_time_slot_availability sameSlotState.appointments 1
      "2025-06-10" "09:00" none = false := by
  refine ⟨?_, ?_⟩ <;> rfl

/-- C5 (amended): a Reschedule of a non-Booked appointment fails with the
InvalidState message; a successful Reschedule changes only the target
appointment's date and time (id, patient, provider, status and notes are
untouched, as is every other row and the treatments table), and — provided
the new slot differs from the prior one — the prior slot is free
immediately after. -/
theorem C5_reschedule_frame (s : DBState) (i : Nat) (nd nt : String)
    (X : MedicalAppointment)
    (hfind : findAppointment s.appointments i = some X)
    (hd : DistinctIds s.appointments)
    (he : ExclusiveBooked s.appointments) :
    (X.status ≠ AppointmentState.BOOKED →
      reschedule_client_appointment s i nd nt = Except.error
        (BookingError.InvalidState
          "Only booked appointments can be rescheduled.")) ∧
    (∀ s', reschedule_client_appointment s i nd nt = Except.ok s' →
      s'.appointments = s.appointments.map (fun a =>
        if a.id = i then { a with date := nd, time := nt } else a) ∧
      s'.treatments = s.treatments ∧
      (¬(nd = X.date ∧ nt = X.time) →
        check_time_slot_availability s'.appointments X.doctor_id X.date
          X.time none = true)) := by
  obtain ⟨hXmem, hXid⟩ := findAppointment_mem hfind
  constructor
  · intro hstatus
    unfold reschedule_client_appointment
    simp only [hfind]
    rw [if_pos hstatus]
  · intro s' hok
    obtain ⟨X0, hfind0, hX0, hcheck, happts, htr, _hav, _hnext⟩ :=
      reschedule_ok hok
    have hXX : X0 = X := by
      rw [hfind0] at hfind
      exact Option.some.inj hfind
    subst hXX
    refine ⟨happts, htr, ?_⟩
    intro hne
    rw [check_time_slot_availability_iff]
    rintro ⟨b, hbmem, hb1, hb2, hb3, hb4, -⟩
    rw [happts, List.mem_map] at hbmem
    obtain ⟨a, hamem, hab⟩ := hbmem
    by_cases hai : a.id = i
    · rw [if_pos hai] at hab
      have haX : a = X0 := distinctIds_id_inj hd hamem hXmem (hai.trans hXid.symm)
      subst haX
      refine hne ⟨?_, ?_⟩
      · rw [← hb2, ← hab]
      · rw [← hb3, ← hab]
    · rw [if_neg hai] at hab
      subst hab
      by_cases haX : a = X0
      · exact hai (haX ▸ hXid)
      · exact exclusiveBooked_forall he hamem hXmem haX
          ⟨hb4, hX0, hb1, hb2, hb3⟩

/-- The same one-appointment database, with 10:00 also declared. -/
def twoSlotState : DBState :=
  { sameSlotState with
      availabilities := [(1, [("2025-06-10", ["09:00", "10:00"])])] }

/-- The appointment of `sameSlotState` moved to 10:00. -/
def movedAppointment : MedicalAppointment :=
  { sameSlotAppointment with time := "10:00" }

/-- Witness for C5: the Booked appointment at 09:00 rescheduled to the
declared 10:00 slot moves there and frees 09:00. -/
theorem C5_reschedule_frame_witness :
    reschedule_client_appointment twoSlotState 1 "2025-06-10" "10:00" =
      Except.ok { twoSlotState with appointments := [movedAppointment] } ∧
    check_time_slot_availability [movedAppointment] 1 "2025-06-10" "09:00"
      none = true := by
  have h := C5_reschedule_frame twoSlotState 1 "2025-06-10" "10:00"
    sameSlotAppointment rfl (List.pairwise_singleton _ _)
    (List.pairwise_singleton _ _)
  have hok : reschedule_client_appointment twoSlotState 1 "2025-06-10" "10:00" =
      Except.ok { twoSlotState with appointments := [movedAppointment] } := rfl
  refine ⟨hok, ?_⟩
  exact (h.2 _ hok).2.2 (by decide)

/-! ### Claim C6: completion requires a diagnosis and attaches one treatment -/

/-- The `treatments` table's `appointment_id` column is unique
(`models.py` line 221). -/
def UniqueTreatmentPerAppointment (treatments : List TreatmentRecord) : Prop :=
  treatments.Pairwise fun u v => u.appointment_id ≠ v.appointment_id

theorem updateFirstTreatment_filter {treatments : List TreatmentRecord}
    {i : Nat} {td : TreatmentData} {tr0 : TreatmentRecord}
    (hu : UniqueTreatmentPerAppointment treatments)
    (hfind : treatments.find? (fun tr => decide (tr.appointment_id = i)) =
      some tr0) :
    (updateFirstTreatment treatments i td).filter
      (fun tr => decide (tr.appointment_id = i)) =
      [applyTreatmentData td tr0] := by
  induction treatments with
  | nil => cases hfind
  | cons c rest ih =>
    rw [UniqueTreatmentPerAppointment, List.pairwise_cons] at hu
    obtain ⟨hc, hrest⟩ := hu
    by_cases hci : c.appointment_id = i
    · rw [List.find?_cons_of_pos _ (by simpa using hci)] at hfind
      have hc0 : c = tr0 := Option.some.inj hfind
      subst hc0
      unfold updateFirstTreatment
      rw [if_pos hci]
      rw [List.filter_cons_of_pos (by simpa using hci)]
      have hnil : rest.filter (fun tr => decide (tr.appointment_id = i)) = [] := by
        rw [List.filter_eq_nil_iff]
        intro u hu2
        simp only [decide_eq_true_eq]
        intro hui
        exact hc u hu2 (hci.trans hui.symm)
      rw [hnil]
    · rw [List.find?_cons_of_neg _ (by simpa using hci)] at hfind
      unfold updateFirstTreatment
      rw [if_neg hci]
      rw [List.filter_cons_of_neg (by simpa using hci)]
      exact ih hrest hfind

theorem create_or_update_filter {treatments : List TreatmentRecord}
    {nid i : Nat} {td : TreatmentData}
    (hu : UniqueTreatmentPerAppointment treatments) :
    ∃ tr, (create_or_update_treatment_record treatments nid i td).1.filter
        (fun tr2 => decide (tr2.appointment_id = i)) = [tr] ∧
      tr.appointment_id = i ∧
      tr.visit_type = td.visit_type ∧ tr.tests_done = td.tests_done ∧
      tr.diagnosis = td.diagnosis ∧ tr.prescription = td.prescription ∧
      tr.medicines = td.medicines ∧ tr.notes = td.notes := by
  unfold create_or_update_treatment_record
  cases hfind : treatments.find? (fun tr => decide (tr.appointment_id = i)) with
  | some tr0 =>
    refine ⟨applyTreatmentData td tr0, ?_, ?_, rfl, rfl, rfl, rfl, rfl, rfl⟩
    · exact updateFirstTreatment_filter hu hfind
    · have := List.find?_some hfind
      simpa using this
  | none =>
    refine ⟨applyTreatmentData td
      { id := nid, appointment_id := i, visit_type := "", tests_done := "",
        diagnosis := "", prescription := "", medicines := "", notes := "" },
      ?_, rfl, rfl, rfl, rfl, rfl, rfl, rfl⟩
    rw [List.filter_append]
    have hnil : treatments.filter (fun tr => decide (tr.appointment_id = i)) = [] := by
      rw [List.filter_eq_nil_iff]
      intro u hu2
      have := List.find?_eq_none.mp hfind u hu2
      simpa using this
    rw [hnil, List.nil_append,
      List.filter_cons_of_pos (by simp [applyTreatmentData]),
      List.filter_nil]

/-- C6: a Complete request on a Booked appointment fails with
ValidationError when the stripped diagnosis is empty; with a non-empty
diagnosis (the lifecycle checker allows Booked→Completed) it succeeds, sets
status=Completed and leaves exactly one Treatment row for the appointment,
carrying the given diagnosis and visit metadata, all in the one commit. -/
theorem C6_complete_requires_diagnosis (s : DBState) (i : Nat)
    (X : MedicalAppointment) (td : TreatmentData)
    (hfind : findAppointment s.appointments i = some X)
    (hb : X.status = AppointmentState.BOOKED)
    (hu : UniqueTreatmentPerAppointment s.treatments) :
    (td.diagnosis = "" →
      mark_appointment_completed s i td =
        Except.error (BookingError.ValidationError "Diagnosis is required.")) ∧
    (td.diagnosis ≠ "" →
      ∃ s', mark_appointment_completed s i td = Except.ok s' ∧
        s'.appointments = s.appointments.map (fun a =>
          if a.id = i then { a with status := AppointmentState.COMPLETED }
          else a) ∧
        ∃ tr, s'.treatments.filter
            (fun tr2 => decide (tr2.appointment_id = i)) = [tr] ∧
          tr.appointment_id = i ∧
          tr.visit_type = td.visit_type ∧ tr.tests_done = td.tests_done ∧
          tr.diagnosis = td.diagnosis ∧ tr.prescription = td.prescription ∧
          tr.medicines = td.medicines ∧ tr.notes = td.notes) := by
  have hnotne : ¬(X.status ≠ AppointmentState.BOOKED) := fun hcontr => hcontr hb
  constructor
  · intro hdiag
    unfold mark_appointment_completed
    simp only [hfind]
    rw [if_neg hnotne, if_pos hdiag]
  · intro hdiag
    unfold mark_appointment_completed
    simp only [hfind]
    rw [if_neg hnotne, if_neg hdiag, hb]
    obtain ⟨tr, htr⟩ :=
      @create_or_update_filter s.treatments s.next_treatment_id i td hu
    cases hpair : create_or_update_treatment_record s.treatments
        s.next_treatment_id i td with
    | mk new_treatments new_next =>
      refine ⟨_, rfl, rfl, ⟨tr, ?_⟩⟩
      rw [hpair] at htr
      exact htr

/-- A Booked appointment with an empty treatments table, for the C6
witness. -/
def bookedOnlyState : DBState := sameSlotState

/-- The completion form data with diagnosis "Flu". -/
def fluTreatmentData : TreatmentData :=
  { visit_type := "In-person"
    tests_done := ""
    diagnosis := "Flu"
    prescription := ""
    medicines := ""
    notes := "" }

/-- Witness for C6: completing the Booked appointment with diagnosis "Flu"
succeeds and stores one treatment row with that diagnosis. -/
theorem C6_complete_requires_diagnosis_witness :
    ∃ s', mark_appointment_completed bookedOnlyState 1 fluTreatmentData =
        Except.ok s' ∧
      s'.appointments = bookedOnlyState.appointments.map (fun a =>
        if a.id = 1 then { a with status := AppointmentState.COMPLETED }
        else a) ∧
      ∃ tr, s'.treatments.filter
          (fun tr2 => decide (tr2.appointment_id = 1)) = [tr] ∧
        tr.appointment_id = 1 ∧
        tr.visit_type = fluTreatmentData.visit_type ∧
        tr.tests_done = fluTreatmentData.tests_done ∧
        tr.diagnosis = fluTreatmentData.diagnosis ∧
        tr.prescription = fluTreatmentData.prescription ∧
        tr.medicines = fluTreatmentData.medicines ∧
        tr.notes = fluTreatmentData.notes :=
  (C6_complete_requires_diagnosis bookedOnlyState 1 sameSlotAppointment
    fluTreatmentData rfl rfl List.Pairwise.nil).2 (by decide)

/-! ### Claim C7: what Create checks, in order, and what it inserts -/

/-- C7: Create validates declared availability first (its two messages name
the never-offered slot), then slot freeness with no exclusion (its message
names the already-taken slot, distinct from the availability messages);
on either failure the request errors out and no row is inserted, and a
successful Create appends exactly one new Booked appointment carrying the
requested patient, provider, date, time and notes. -/
theorem C7_create_validation_order (s : DBState) (p doc : Nat)
    (d t notes : String) :
    (∀ e, validate_doctor_availability
        ((lookupAvailability s.availabilities doc).getD []) d t = some e →
      create_appointment s p doc d t notes =
        Except.error (BookingError.SlotUnavailable e.message) ∧
      e.message ≠ slotTakenMessage) ∧
    (validate_doctor_availability
        ((lookupAvailability s.availabilities doc).getD []) d t = none →
      check_time_slot_availability s.appointments doc d t none = false →
      create_appointment s p doc d t notes =
        Except.error (BookingError.SlotUnavailable slotTakenMessage)) ∧
    (∀ s', create_appointment s p doc d t notes = Except.ok s' →
      s'.appointments = s.appointments ++ [newAppointment s p doc d t notes] ∧
      (newAppointment s p doc d t notes).status = AppointmentState.BOOKED ∧
      (newAppointment s p doc d t notes).patient_id = p ∧
      (newAppointment s p doc d t notes).doctor_id = doc ∧
      (newAppointment s p doc d t notes).date = d ∧
      (newAppointment s p doc d t notes).time = t ∧
      (newAppointment s p doc d t notes).notes = notes) := by
  refine ⟨?_, ?_, ?_⟩
  · intro e he
    constructor
    · unfold create_appointment
      simp only [he]
    · cases e <;> simp [AvailabilityError.message, slotTakenMessage]
  · intro h1 h2
    unfold create_appointment
    simp only [h1]
    rw [if_pos h2]
  · intro s' hok
    exact ⟨(create_appointment_ok hok).2.1, rfl, rfl, rfl, rfl, rfl, rfl⟩

/-- A database where doctor 1 declares only 2025-06-10 09:00, for the C7
witness. -/
def c7State : DBState := initialState [(1, [("2025-06-10", ["09:00"])])]

/-- Witness for C7: requesting the undeclared 10:00 slot fails with the
availability message, which is distinct from the already-taken message. -/
theorem C7_create_validation_order_witness :
    create_appointment c7State 10 1 "2025-06-10" "10:00" "checkup" =
      Except.error (BookingError.SlotUnavailable
        "Selected time slot is not available. Please choose another time.") ∧
    ("Selected time slot is not available. Please choose another time." : String) ≠
      slotTakenMessage :=
  (C7_create_validation_order c7State 10 1 "2025-06-10" "10:00" "checkup").1
    AvailabilityError.TimeUnavailable (by decide)

/-! ### Claims C8 and C9: admin status updates and hard deletes -/

theorem findAppointment_of_mem {l : List MedicalAppointment}
    (hd : DistinctIds l) {X : MedicalAppointment} (hX : X ∈ l) :
    findAppointment l X.id = some X := by
  induction l with
  | nil => cases hX
  | cons c rest ih =>
    rw [DistinctIds, List.pairwise_cons] at hd
    obtain ⟨hc, hrest⟩ := hd
    rcases List.mem_cons.mp hX with rfl | hXr
    · unfold findAppointment
      rw [List.find?_cons_of_pos _ (by simp)]
    · have hne : c.id ≠ X.id := hc X hXr
      unfold findAppointment
      rw [List.find?_cons_of_neg _ (by simpa using hne)]
      exact ih hrest hXr

/-- C8 (amended): no sequence of Create/Reschedule/Cancel/Complete requests
ever touches a Completed or Cancelled appointment (each such request either
leaves the row alone or fails), and the lifecycle checker rejects a return
to Booked; the administrative status-update, however, does not fail on such
a transition: it applies the requested status anyway and reports the
checker's objection only as a warning flash. -/
theorem C8_no_time_travel_amended (s : DBState) (X : MedicalAppointment)
    (hX : X ∈ s.appointments) (hs : X.status ≠ AppointmentState.BOOKED)
    (hd : DistinctIds s.appointments) :
    (∀ op : Op, X ∈ (step s op).appointments) ∧
    (validate_status_transition X.status AppointmentState.BOOKED).1 = false ∧
    modify_appointment_status s X.id "Booked" =
      ({ s with appointments := s.appointments.map fun a =>
          if a.id = X.id then { a with status := AppointmentState.BOOKED }
          else a }, FlashCategory.warning) := by
  have hval : (validate_status_transition X.status
      AppointmentState.BOOKED).1 = false := by
    cases hst : X.status with
    | BOOKED => exact absurd hst hs
    | COMPLETED => rfl
    | CANCELLED => rfl
  refine ⟨?_, hval, ?_⟩
  · intro op
    cases op with
    | create p doc d t n =>
      unfold step runOp
      dsimp only
      cases hr : create_appointment s p doc d t n with
      | error e => exact hX
      | ok s' =>
        rw [(create_appointment_ok hr).2.1]
        exact List.mem_append_left _ hX
    | reschedule i d t =>
      unfold step runOp
      dsimp only
      cases hr : reschedule_client_appointment s i d t with
      | error e => exact hX
      | ok s' =>
        obtain ⟨X0, hfind0, hX0, _hcheck, happts, -⟩ := reschedule_ok hr
        obtain ⟨hX0mem, hX0id⟩ := findAppointment_mem hfind0
        rw [happts]
        have hne : X.id ≠ i := fun hcontr =>
          hs ((distinctIds_id_inj hd hX hX0mem (hcontr.trans hX0id.symm)) ▸ hX0)
        exact List.mem_map.mpr ⟨X, hX, by rw [if_neg hne]⟩
    | cancel i =>
      unfold step runOp
      dsimp only
      cases hr : cancel_client_appointment s i with
      | error e => exact hX
      | ok s' =>
        obtain ⟨X0, hfind0, hX0, happts, -⟩ := cancel_ok hr
        obtain ⟨hX0mem, hX0id⟩ := findAppointment_mem hfind0
        rw [happts]
        have hne : X.id ≠ i := fun hcontr =>
          hs ((distinctIds_id_inj hd hX hX0mem (hcontr.trans hX0id.symm)) ▸ hX0)
        exact List.mem_map.mpr ⟨X, hX, by rw [if_neg hne]⟩
    | complete i td =>
      unfold step runOp
      dsimp only
      cases hr : mark_appointment_completed s i td with
      | error e => exact hX
      | ok s' =>
        obtain ⟨X0, hfind0, hX0, _hdiag, happts, -⟩ := complete_ok hr
        obtain ⟨hX0mem, hX0id⟩ := findAppointment_mem hfind0
        rw [happts]
        have hne : X.id ≠ i := fun hcontr =>
          hs ((distinctIds_id_inj hd hX hX0mem (hcontr.trans hX0id.symm)) ▸ hX0)
        exact List.mem_map.mpr ⟨X, hX, by rw [if_neg hne]⟩
  · unfold modify_appointment_status
    simp only [findAppointment_of_mem hd hX]
    rw [show parseAppointmentStatus "Booked" =
      some AppointmentState.BOOKED from rfl]
    simp only [hval]
    rfl

/-- The appointment of `sameSlotState`, already Completed. -/
def completedAppointment : MedicalAppointment :=
  { sameSlotAppointment with status := AppointmentState.COMPLETED }

/-- A database holding one Completed appointment. -/
def completedState : DBState :=
  { sameSlotState with appointments := [completedAppointment] }

/-- C8 counterexample: the administrative status-update requesting
Completed→Booked does not fail with InvalidState and does not leave the
status unchanged: it sets the appointment back to Booked and reports only a
warning. -/
theorem C8_admin_resurrects_counterexample :
    (modify_appointment_status completedState 1 "Booked").1.appointments =
      [{ completedAppointment with status := AppointmentState.BOOKED }] ∧
    (modify_appointment_status completedState 1 "Booked").2 =
      FlashCategory.warning := ⟨rfl, rfl⟩

/-- Witness for C8's amended claim at the one-Completed-appointment
database. -/
theorem C8_no_time_travel_amended_witness :
    modify_appointment_status completedState 1 "Booked" =
      ({ completedState with appointments :=
          completedState.appointments.map fun a =>
            if a.id = 1 then { a with status := AppointmentState.BOOKED }
            else a }, FlashCategory.warning) :=
  (C8_no_time_travel_amended completedState completedAppointment
    (List.mem_singleton.mpr rfl) (by decide)
    (List.pairwise_singleton _ _)).2.2

theorem eraseP_of_distinct {l : List MedicalAppointment} {i : Nat}
    {X : MedicalAppointment} (hd : DistinctIds l) (hX : X ∈ l)
    (hXi : X.id = i) :
    X ∉ l.eraseP (fun a => decide (a.id = i)) ∧
    ∀ a ∈ l, a ≠ X → a ∈ l.eraseP (fun a => decide (a.id = i)) := by
  induction l with
  | nil => cases hX
  | cons c rest ih =>
    rw [DistinctIds, List.pairwise_cons] at hd
    obtain ⟨hc, hrest⟩ := hd
    by_cases hci : c.id = i
    · have hcX : c = X := by
        rcases List.mem_cons.mp hX with rfl | hXr
        · rfl
        · exact absurd (hci.trans hXi.symm) (hc X hXr)
      rw [List.eraseP_cons_of_pos (by simpa using hci)]
      subst hcX
      refine ⟨fun hmem => hc c hmem rfl, ?_⟩
      intro a ha hne
      rcases List.mem_cons.mp ha with rfl | har
      · exact absurd rfl hne
      · exact har
    · have hXr : X ∈ rest := by
        rcases List.mem_cons.mp hX with rfl | hXr
        · exact absurd hXi hci
        · exact hXr
      have hcX : c ≠ X := fun hcontr => hci (hcontr ▸ hXi)
      rw [List.eraseP_cons_of_neg (by simpa using hci)]
      obtain ⟨hnot, hkeep⟩ := ih hrest hXr
      refine ⟨?_, ?_⟩
      · intro hmem
        rcases List.mem_cons.mp hmem with rfl | hmr
        · exact hcX rfl
        · exact hnot hmr
      · intro a ha hne
        rcases List.mem_cons.mp ha with rfl | har
        · exact List.mem_cons_self a _
        · exact List.mem_cons_of_mem c (hkeep a har hne)

/-- C9: the administrative hard-delete succeeds exactly when the
appointment is not Completed: on a Completed appointment it fails and the
record is unchanged, while a Booked or Cancelled appointment's row is
removed (its attached treatment rows cascade away with it) and every other
appointment row is kept. -/
theorem C9_admin_delete_guard (s : DBState) (i : Nat)
    (X : MedicalAppointment)
    (hfind : findAppointment s.appointments i = some X)
    (hd : DistinctIds s.appointments) :
    (X.status = AppointmentState.COMPLETED →
      remove_appointment s i = Except.error (BookingError.InvalidState
        "Cannot delete completed appointments. They are permanent medical records.")) ∧
    (X.status ≠ AppointmentState.COMPLETED →
      ∃ s', remove_appointment s i = Except.ok s' ∧
        X ∉ s'.appointments ∧
        (∀ a ∈ s.appointments, a ≠ X → a ∈ s'.appointments) ∧
        s'.treatments =
          s.treatments.filter (fun tr => decide (tr.appointment_id ≠ i))) := by
  obtain ⟨hXmem, hXid⟩ := findAppointment_mem hfind
  constructor
  · intro hc
    unfold remove_appointment
    simp only [hfind]
    rw [if_pos hc]
  · intro hc
    unfold remove_appointment
    simp only [hfind]
    rw [if_neg hc]
    obtain ⟨hnot, hkeep⟩ := eraseP_of_distinct hd hXmem hXid
    exact ⟨_, rfl, hnot, hkeep, rfl⟩

/-- A treatment row attached to appointment 1 (left over from a completion
that an administrator later reverted). -/
def strayTreatmentRecord : TreatmentRecord :=
  { id := 1
    appointment_id := 1
    visit_type := "In-person"
    tests_done := ""
    diagnosis := "Flu"
    prescription := ""
    medicines := ""
    notes := "" }

/-- A database holding one Cancelled appointment together with its
treatment row. -/
def cancelledState : DBState :=
  { sameSlotState with
      appointments :=
        [{ sameSlotAppointment with status := AppointmentState.CANCELLED }]
      treatments := [strayTreatmentRecord] }

/-- Witness for C9: deleting the Cancelled appointment removes its row and
its attached treatment row cascades away. -/
theorem C9_admin_delete_guard_witness :
    ∃ s', remove_appointment cancelledState 1 = Except.ok s' ∧
      ({ sameSlotAppointment with
          status := AppointmentState.CANCELLED }) ∉ s'.appointments ∧
      (∀ a ∈ cancelledState.appointments,
        a ≠ { sameSlotAppointment with
          status := AppointmentState.CANCELLED } → a ∈ s'.appointments) ∧
      s'.treatments =
        cancelledState.treatments.filter
          (fun tr => decide (tr.appointment_id ≠ 1)) :=
  (C9_admin_delete_guard cancelledState 1
    { sameSlotAppointment with status := AppointmentState.CANCELLED }
    rfl (List.pairwise_singleton _ _)).2 (by decide)

/-- Witness for C10 at the forbidden transition Completed→Booked. -/
theorem C10_change_status_bypass_witness :
    change_status AppointmentState.COMPLETED AppointmentState.BOOKED true =
      ((true, "Status changed from Completed to Booked"),
        AppointmentState.BOOKED) ∧
    change_status AppointmentState.COMPLETED AppointmentState.BOOKED false =
      ((false, "Cannot change Completed appointment back to Booked"),
        AppointmentState.COMPLETED) :=
  ⟨(C10_change_status_bypass AppointmentState.COMPLETED
      AppointmentState.BOOKED).1,
   (C10_change_status_bypass AppointmentState.COMPLETED
      AppointmentState.BOOKED).2
      "Cannot change Completed appointment back to Booked" (by decide)⟩

end HospitalMS
